import Mathlib

/-!
Verification of the mhub-serial-bridge connection-lifecycle core.

This file shallowly embeds the relevant parts of the TypeScript source
(`src/hub.ts`, `src/bridge.ts`, `src/util.ts`, `src/serialPortScanner.ts`)
as pure Lean functions and proves (or refutes) the specified properties
about them.  JavaScript `Map` objects become association lists whose
operations mirror the `Map` API; sequential `async` code between `await`
points becomes explicit state passing together with an event trace; the
few relevant JavaScript quirks (string interpolation of `undefined`,
`Object.keys` applied to a `Map`, object-spread copying explicitly
`undefined` properties) are embedded with their actual semantics.
-/

/-- Association-list model of a JavaScript `Map<string, α>`:
entries in insertion order, at most one entry per key (maintained by
`mset`, which overwrites in place like `Map.prototype.set`). -/
abbrev SMap (α : Type) : Type := List (String × α)

/-- `Map.prototype.get`: value stored for `k`, if any. -/
def mget {α : Type} : SMap α → String → Option α
  | [], _ => none
  | (k2, v) :: rest, k => if k2 = k then some v else mget rest k

/-- `Map.prototype.has`. -/
def mhas {α : Type} (m : SMap α) (k : String) : Bool :=
  (mget m k).isSome

/-- `Map.prototype.set`: overwrite the existing entry for `k` in place,
or append a new entry. -/
def mset {α : Type} : SMap α → String → α → SMap α
  | [], k, v => [(k, v)]
  | (k2, v2) :: rest, k, v =>
    if k2 = k then (k, v) :: rest else (k2, v2) :: mset rest k v

/-- `Map.prototype.delete`: remove the entry for `k` (as a filter; with
unique keys this is exactly the `Map` behaviour). -/
def mdel {α : Type} (m : SMap α) (k : String) : SMap α :=
  m.filter (fun p => p.1 != k)

/-- The keys of the map, in order. -/
def mkeys {α : Type} (m : SMap α) : List String :=
  m.map Prod.fst

/-- Keys are pairwise distinct (the `Map` representation invariant). -/
def keysNodup {α : Type} (m : SMap α) : Prop :=
  (mkeys m).Nodup

/-! ## Hub (src/hub.ts) -/

/-- How one cycle of the `Hub.run` loop ends: the connect or login call
threw, or the connect (and login) succeeded and the session later
reported closed. -/
inductive CycleOutcome
  | connectFail
  | connectedThenDropped
deriving DecidableEq, Repr

/-- One iteration of the `while (true)` loop of `Hub.run`
(src/hub.ts lines 38-66), as written: the `try` block (connect, login,
emit connect, wait for close, emit disconnect) contains no assignment to
`lastSuccess`, so the flag is read unchanged at the `if (!lastSuccess)`
delay check and then unconditionally set to `false`.  The result is the
pair (was the 3000 ms retry delay awaited this iteration, value of
`lastSuccess` at the end of the iteration). -/
def hubIter (lastSuccess : Bool) (_outcome : CycleOutcome) : Bool × Bool :=
  (!lastSuccess, false)

/-- The per-cycle delay decisions of `Hub.run`, starting from a given
value of `lastSuccess`, for a given sequence of cycle outcomes. -/
def hubDelaysFrom : Bool → List CycleOutcome → List Bool
  | _, [] => []
  | ls, o :: rest =>
    let r := hubIter ls o
    r.1 :: hubDelaysFrom r.2 rest

/-- `Hub.run` declares `let lastSuccess = false` before entering the
loop (src/hub.ts line 37). -/
def hubRunDelays (outcomes : List CycleOutcome) : List Bool :=
  hubDelaysFrom false outcomes

/-- Modelled from the spec: the intended backoff flag semantics —
`lastSuccess` is set to true during a cycle whose connect succeeded,
consulted to decide whether to delay before the next attempt, and reset
to false at the end of every iteration. -/
def specHubIter (lastSuccess : Bool) (outcome : CycleOutcome) : Bool × Bool :=
  let ls := if outcome = CycleOutcome.connectedThenDropped then true else lastSuccess
  (!ls, false)

/-- Modelled from the spec: the delay decisions the spec prescribes. -/
def specHubDelaysFrom : Bool → List CycleOutcome → List Bool
  | _, [] => []
  | ls, o :: rest =>
    let r := specHubIter ls o
    r.1 :: specHubDelaysFrom r.2 rest

/-- Modelled from the spec: delays of a whole run, initial flag false. -/
def specHubRunDelays (outcomes : List CycleOutcome) : List Bool :=
  specHubDelaysFrom false outcomes

/-! ## Connection line framing (src/bridge.ts) -/

/-- JavaScript template-literal interpolation of a value of type
`string | undefined`: interpolating `undefined` yields the literal text
"undefined". -/
def jsInterpolate : Option String → String
  | some s => s
  | none => "undefined"

/-- `Connection.dispatch` (src/bridge.ts lines 97-108) applied to a
string message: the line written to the serial port, built by the
template literal appending `this.options.delimiter` to the message. -/
def dispatchLine (delimiter : Option String) (message : String) : String :=
  message ++ jsInterpolate delimiter

/-- The `delimiter` property of a `BridgePortOptions` value as supplied
by the caller: absent, present with the explicit value `undefined`, or
present with a string value. -/
inductive DelimField
  | absent
  | setUndefined
  | setTo (s : String)
deriving DecidableEq, Repr

/-- The spread merge `{ ...defaultOptions, ...options }` in
`Bridge.attach` (src/bridge.ts line 143) restricted to the `delimiter`
property: an own property `delimiter: undefined` on `options` overwrites
the default `"\n"`, because object spread copies own enumerable
properties regardless of their value. -/
def mergeDelimiter : DelimField → Option String
  | DelimField.absent => some "\n"
  | DelimField.setUndefined => none
  | DelimField.setTo s => some s

/-! ## Serial port scanner (src/serialPortScanner.ts) -/

/-- JavaScript `Object.keys` applied to a `Map` instance: a `Map` keeps
its entries in internal slots, not as own enumerable properties, so
`Object.keys` yields the empty array (src/serialPortScanner.ts line 200
applies it to `this._ports`, which is a `Map`). -/
def objectKeysOfMap {α : Type} (_m : SMap α) : List String := []

/-- The `foundPorts` map built by `SerialPortScanner._scan`
(src/serialPortScanner.ts lines 190-197): each configured location is
resolved with `fs.realpath`; unresolvable locations are skipped; the
result is keyed by canonical (resolved) path, later entries overwriting
earlier ones with the same canonical path. -/
def foundPortsOf {α : Type} (resolve : String → Option String)
    (configured : List (String × α)) : SMap α :=
  configured.foldl
    (fun acc e =>
      match resolve e.1 with
      | some real => mset acc real e.2
      | none => acc)
    ([] : SMap α)

/-- Result of one `_scan` call: the tracked map `this._ports` after the
stale-removal step, and the map of new ports returned to `_tick`. -/
structure ScanResult (α : Type) where
  tracked : SMap α
  newPorts : SMap α
deriving DecidableEq, Repr

/-- `SerialPortScanner._scan` (src/serialPortScanner.ts lines 185-213):
build `foundPorts`; then iterate `Object.keys(this._ports)` deleting
tracked ports absent from `foundPorts`; then return the entries of
`foundPorts` not currently tracked. -/
def scanStep {α : Type} (resolve : String → Option String)
    (configured : List (String × α)) (tracked : SMap α) : ScanResult α :=
  let foundPorts := foundPortsOf resolve configured
  let tracked2 := (objectKeysOfMap tracked).foldl
    (fun acc k => if mhas foundPorts k then acc else mdel acc k) tracked
  let newPorts := foundPorts.filter (fun e => !(mhas tracked2 e.1))
  ⟨tracked2, newPorts⟩

/-- How processing one new port in `_tick` ends: the `_open` call
rejected, or it resolved and the `onOpen` callback then rejected, or
both succeeded. -/
inductive OpenOutcome
  | openFail
  | callbackFail
  | callbackOk
deriving DecidableEq, Repr

/-- Result of `_tick` processing one entry of `newPorts`: the tracked
map afterwards, whether the tick itself called `port.close()`, and the
value of the captured `openSuccessful` flag that the close watcher will
later read. -/
structure TickOneResult (α : Type) where
  tracked : SMap α
  closedByTick : Bool
  openSuccessful : Bool
deriving DecidableEq, Repr

/-- `SerialPortScanner._tick` handling of a single new port
(src/serialPortScanner.ts lines 150-182): on open success the port is
added to `this._ports` and a close watcher capturing `openSuccessful` is
registered; if the callback then throws, the port is deleted from
`this._ports` again and closed, with `openSuccessful` still false; only
after the callback returns is `openSuccessful` set to true. -/
def tickOne {α : Type} (tracked : SMap α) (comName : String) (opts : α) :
    OpenOutcome → TickOneResult α
  | OpenOutcome.openFail => ⟨tracked, false, false⟩
  | OpenOutcome.callbackFail => ⟨mdel (mset tracked comName opts) comName, true, false⟩
  | OpenOutcome.callbackOk => ⟨mset tracked comName opts, false, true⟩

/-- Result of the close watcher registered in `_tick`
(src/serialPortScanner.ts lines 160-166) running: the tracked map, and
whether `this._sleeper.interrupt()` was invoked. -/
structure CloseWatchResult (α : Type) where
  tracked : SMap α
  interrupted : Bool
deriving DecidableEq, Repr

/-- The close watcher: delete the port from `this._ports`; interrupt the
scan-interval sleep only if `openSuccessful` was set. -/
def onPortClose {α : Type} (tracked : SMap α) (comName : String)
    (openSuccessful : Bool) : CloseWatchResult α :=
  ⟨mdel tracked comName, openSuccessful⟩

/-! ## Map lemmas shared by several proofs -/

theorem mget_eq_none_of_not_mem {α : Type} (m : SMap α) (k : String)
    (h : k ∉ mkeys m) : mget m k = none := by
  induction m with
  | nil => rfl
  | cons e rest ih =>
    simp only [mkeys, List.map_cons, List.mem_cons, not_or] at h
    cases e with
    | mk k2 v =>
      simp only [mget]
      rw [if_neg (by simpa [eq_comm] using h.1)]
      exact ih (by simpa [mkeys] using h.2)

theorem mem_mkeys_of_mhas {α : Type} (m : SMap α) (k : String)
    (h : mhas m k = true) : k ∈ mkeys m := by
  by_contra hk
  rw [mhas, mget_eq_none_of_not_mem m k hk] at h
  simp [Option.isSome] at h

theorem mem_mkeys_mset {α : Type} (m : SMap α) (k : String) (v : α)
    (a : String) (h : a ∈ mkeys (mset m k v)) : a = k ∨ a ∈ mkeys m := by
  induction m with
  | nil =>
    simp only [mset, mkeys, List.map_cons, List.map_nil, List.mem_singleton] at h
    exact Or.inl h
  | cons e rest ih =>
    cases e with
    | mk k2 v2 =>
      simp only [mset] at h
      by_cases hk : k2 = k
      · rw [if_pos hk] at h
        simp only [mkeys, List.map_cons, List.mem_cons] at h ⊢
        rcases h with h | h
        · exact Or.inl h
        · exact Or.inr (Or.inr h)
      · rw [if_neg hk] at h
        simp only [mkeys, List.map_cons, List.mem_cons] at h ⊢
        rcases h with h | h
        · exact Or.inr (Or.inl h)
        · rcases ih (by simpa [mkeys] using h) with h2 | h2
          · exact Or.inl h2
          · exact Or.inr (Or.inr h2)

theorem keysNodup_mset {α : Type} (m : SMap α) (k : String) (v : α)
    (h : keysNodup m) : keysNodup (mset m k v) := by
  induction m with
  | nil => simp [keysNodup, mset, mkeys]
  | cons e rest ih =>
    cases e with
    | mk k2 v2 =>
      simp only [keysNodup, mkeys, List.map_cons, List.nodup_cons] at h
      by_cases hk : k2 = k
      · simp only [keysNodup, mset, if_pos hk, mkeys, List.map_cons,
          List.nodup_cons]
        exact ⟨by rw [← hk]; exact h.1, h.2⟩
      · simp only [keysNodup, mset, if_neg hk, mkeys, List.map_cons,
          List.nodup_cons]
        constructor
        · intro hmem
          rcases mem_mkeys_mset rest k v k2 (by simpa [mkeys] using hmem) with
            h2 | h2
          · exact hk h2
          · exact h.1 h2
        · exact ih h.2

theorem keysNodup_foundPortsOf {α : Type} (resolve : String → Option String)
    (configured : List (String × α)) : keysNodup (foundPortsOf resolve configured) := by
  have general : ∀ (cfg : List (String × α)) (acc : SMap α), keysNodup acc →
      keysNodup (cfg.foldl
        (fun acc2 e =>
          match resolve e.1 with
          | some real => mset acc2 real e.2
          | none => acc2) acc) := by
    intro cfg
    induction cfg with
    | nil => intro acc h; exact h
    | cons e rest ih =>
      intro acc h
      simp only [List.foldl_cons]
      apply ih
      cases hr : resolve e.1 with
      | none => simpa [hr] using h
      | some real => simpa [hr] using keysNodup_mset acc real e.2 h
  exact general configured [] (by simp [keysNodup, mkeys])

theorem keysNodup_filter {α : Type} (m : SMap α) (f : String × α → Bool)
    (h : keysNodup m) : keysNodup (m.filter f) := by
  have hsub : (m.filter f).Sublist m := List.filter_sublist m
  exact List.Nodup.sublist (List.Sublist.map Prod.fst hsub) h

theorem mem_mdel {α : Type} (m : SMap α) (k : String) (e : String × α)
    (h : e ∈ mdel m k) : e ∈ m ∧ e.1 ≠ k := by
  rw [mdel, List.mem_filter] at h
  exact ⟨h.1, by simpa using h.2⟩

theorem foldl_mdel_all_keys {α : Type} :
    ∀ (ks : List String) (m : SMap α), (∀ e ∈ m, e.1 ∈ ks) →
      ks.foldl (fun acc k => mdel acc k) m = [] := by
  intro ks
  induction ks with
  | nil =>
    intro m h
    cases m with
    | nil => rfl
    | cons e rest => exact absurd (h e (List.mem_cons_self e rest)) (by simp)
  | cons k ks ih =>
    intro m h
    simp only [List.foldl_cons]
    apply ih
    intro e he
    rcases mem_mdel m k e he with ⟨hm, hne⟩
    rcases List.mem_cons.mp (h e hm) with h2 | h2
    · exact absurd h2 hne
    · exact h2

theorem mdel_of_not_has {α : Type} (m : SMap α) (k : String)
    (h : mhas m k = false) : mdel m k = m := by
  induction m with
  | nil => rfl
  | cons e rest ih =>
    cases e with
    | mk k2 v =>
      simp only [mhas, mget] at h
      by_cases hk : k2 = k
      · rw [if_pos hk] at h; simp [Option.isSome] at h
      · rw [if_neg hk] at h
        simp only [mdel, List.filter_cons]
        rw [if_pos (by simpa using hk)]
        have := ih (by simpa [mhas] using h)
        rw [mdel] at this
        rw [this]

theorem mdel_mset_self {α : Type} (m : SMap α) (k : String) (v : α) :
    mdel (mset m k v) k = mdel m k := by
  induction m with
  | nil => simp [mset, mdel, List.filter_cons]
  | cons e rest ih =>
    cases e with
    | mk k2 v2 =>
      by_cases hk : k2 = k
      · simp only [mset, if_pos hk, mdel, List.filter_cons]
        rw [if_neg (by simp), if_neg (by simpa using hk)]
      · simp only [mset, if_neg hk, mdel, List.filter_cons]
        rw [if_pos (by simpa using hk), if_pos (by simpa using hk)]
        have := ih
        rw [mdel, mdel] at this
        rw [this]

/-! ## Claim theorems: C1, C2, C3 -/

/-- C1: the claimed backoff behaviour fails on the code.  `Hub.run`
never assigns `true` to `lastSuccess` (the try block of src/hub.ts lines
39-55 contains no such assignment), so after the cycle
connect→success→drop the immediately following retry still awaits the
3000 ms delay: the code produces delays [true, true] on the outcome
sequence [connectedThenDropped, connectFail], whereas the intended flag
semantics modelled from the spec produces [false, true]; moreover the
code delays on every cycle whatsoever. -/
theorem C1_hub_backoff_flag_dead :
    hubRunDelays [CycleOutcome.connectedThenDropped, CycleOutcome.connectFail]
      = [true, true] ∧
    specHubRunDelays [CycleOutcome.connectedThenDropped, CycleOutcome.connectFail]
      = [false, true] := by
  exact ⟨rfl, rfl⟩

/-- C2: the claimed raw pass-through fails on the code.  With the
delimiter explicitly set to `undefined` (which the spread merge keeps as
`undefined`, overriding the default), `Connection.dispatch` builds the
written line with a template literal interpolating `undefined`, so the
literal text "undefined" is appended to the payload instead of nothing. -/
theorem C2_dispatch_appends_undefined :
    mergeDelimiter DelimField.setUndefined = none ∧
    dispatchLine (mergeDelimiter DelimField.setUndefined) "hello" = "helloundefined" ∧
    dispatchLine (mergeDelimiter DelimField.setUndefined) "hello" ≠ "hello" := by
  refine ⟨rfl, rfl, ?_⟩
  decide

/-- C3: the claimed stale-device removal fails on the code.  The
removal loop of `_scan` iterates `Object.keys(this._ports)`, but
`this._ports` is a `Map`, so `Object.keys` yields no keys and the loop
never deletes anything: the tracked map is returned unchanged by every
scan, and in particular a tracked device whose canonical identity is no
longer resolvable ("/dev/ttyUSB0" below, with nothing resolvable) stays
in the tracked map. -/
theorem C3_stale_removal_is_dead_code :
    (∀ (resolve : String → Option String) (cfg : List (String × Nat))
        (tr : SMap Nat), (scanStep resolve cfg tr).tracked = tr) ∧
    (scanStep (fun _ => none) [("/dev/a", 0)] [("/dev/ttyUSB0", 0)]).tracked
      = [("/dev/ttyUSB0", 0)] := by
  exact ⟨fun _ _ _ => rfl, rfl⟩

/-! ## Claim theorems: C7, C9 -/

/-- C7: dedup invariant.  For any resolution function, configuration and
tracked map, the `newPorts` map a single `_scan` returns has pairwise
distinct keys — each canonical identity occurs at most once — because
`foundPorts` is built with `Map.set` keyed by the resolved path and
filtering preserves key uniqueness.  `_tick` performs one open attempt
and at most one callback invocation per `newPorts` entry, so at most one
per canonical identity. -/
theorem C7_scan_dedups_by_canonical_identity {α : Type}
    (resolve : String → Option String) (configured : List (String × α))
    (tracked : SMap α) (identity : String) :
    keysNodup (scanStep resolve configured tracked).newPorts ∧
    (mkeys (scanStep resolve configured tracked).newPorts).count identity ≤ 1 := by
  have hnodup : keysNodup (scanStep resolve configured tracked).newPorts := by
    have hfound := keysNodup_foundPortsOf resolve configured
    exact keysNodup_filter _ _ hfound
  exact ⟨hnodup, (List.nodup_iff_count_le_one.mp hnodup) identity⟩

/-- C9: when the open succeeds but the `onOpen` callback rejects, the
tick deletes the device from the tracked map and closes the port, with
`openSuccessful` still false, so the close watcher does not interrupt
the scan sleep; the device is again absent from the tracked map, hence
the next scan that resolves it reports it as new; by contrast a device
whose callback succeeded has `openSuccessful` true and its close does
interrupt the sleep. -/
theorem C9_callback_failure_closes_without_wake {α : Type}
    (tracked : SMap α) (comName : String) (opts : α)
    (resolve : String → Option String) (cfg : List (String × α))
    (hnew : mhas tracked comName = false)
    (hfound : mhas (foundPortsOf resolve cfg) comName = true) :
    (tickOne tracked comName opts OpenOutcome.callbackFail).tracked = tracked ∧
    (tickOne tracked comName opts OpenOutcome.callbackFail).closedByTick = true ∧
    (onPortClose (tickOne tracked comName opts OpenOutcome.callbackFail).tracked
        comName
        (tickOne tracked comName opts OpenOutcome.callbackFail).openSuccessful).interrupted
      = false ∧
    mhas (scanStep resolve cfg
        (tickOne tracked comName opts OpenOutcome.callbackFail).tracked).newPorts
        comName = true ∧
    (onPortClose (tickOne tracked comName opts OpenOutcome.callbackOk).tracked
        comName
        (tickOne tracked comName opts OpenOutcome.callbackOk).openSuccessful).interrupted
      = true := by
  have htr : (tickOne tracked comName opts OpenOutcome.callbackFail).tracked
      = tracked := by
    show mdel (mset tracked comName opts) comName = tracked
    rw [mdel_mset_self, mdel_of_not_has tracked comName hnew]
  refine ⟨htr, rfl, rfl, ?_, rfl⟩
  rw [htr]
  show mhas ((foundPortsOf resolve cfg).filter
      (fun e => !(mhas ((objectKeysOfMap tracked).foldl
        (fun acc k => if mhas (foundPortsOf resolve cfg) k then acc else mdel acc k)
        tracked) e.1))) comName = true
  have htracked2 : (objectKeysOfMap tracked).foldl
      (fun acc k => if mhas (foundPortsOf resolve cfg) k then acc else mdel acc k)
      tracked = tracked := rfl
  rw [htracked2]
  have hmem : ∀ (m : SMap α), mhas m comName = true →
      mhas (m.filter (fun e => !(mhas tracked e.1))) comName = true := by
    intro m
    induction m with
    | nil => intro h; exact h
    | cons e rest ih =>
      intro h
      cases e with
      | mk k2 v =>
        by_cases hk : k2 = comName
        · subst hk
          simp only [List.filter_cons, hnew, Bool.not_false, if_pos]
          simp [mhas, mget]
        · simp only [mhas, mget, if_neg hk] at h
          simp only [List.filter_cons]
          cases hkeep : mhas tracked k2 with
          | true =>
            simp only [hkeep, Bool.not_true, Bool.false_eq_true, if_false]
            exact ih (by simpa [mhas] using h)
          | false =>
            simp only [hkeep, Bool.not_false, if_true]
            simp only [mhas, mget, if_neg hk]
            exact ih (by simpa [mhas] using h)
  exact hmem _ hfound

/-! ## Bridge (src/bridge.ts) -/

/-- Options of an established Connection, as stored per topic prefix. -/
structure ConnOpts where
  node : String
  topicPref : String
  delim : Option String
deriving DecidableEq, Repr

/-- Bridge state: whether `this._client` is set (a live MHub session),
and `this._connections`, keyed by topic prefix. -/
structure BridgeState where
  hasClient : Bool
  connections : SMap ConnOpts
deriving DecidableEq, Repr

/-- Observable broker-facing events of the bridge, in program order.
`publishCall` is the invocation of `client.publish` (via `_safePublish`,
which does not await it); `publishDone` is the later settlement of that
publish's promise; `dispatchTx` is `_handleMessage` handing an inbound
broker message to `Connection.dispatch`. -/
inductive BEv
  | subscribeCall (node topic subId : String)
  | subscribeDone
  | publishCall (node topic data : String)
  | publishDone (node topic data : String)
  | attachReturn
  | dispatchTx (subId data : String)
deriving DecidableEq, Repr

/-- The error paths of `Bridge.attach`. -/
inductive AttachErr
  | duplicateTopic
  | noClient
  | subscribeFail
deriving DecidableEq, Repr

/-- Result of one `attach` call: the error (if any), the bridge state
afterwards, and the trace of broker-facing events the call performed. -/
structure AttachResult where
  err : Option AttachErr
  state : BridgeState
  trace : List BEv
deriving DecidableEq, Repr

/-- `Bridge.attach` (src/bridge.ts lines 133-170), with the broker's
answer to the subscribe call supplied as `subscribeOk`.  Step order as
in the source: duplicate-prefix check; option merge and Connection
construction; client check; awaited subscribe; wiring of the close and
publish listeners; insertion into `this._connections`; `conn.start()`,
which emits the "open" state publish through `_safePublish` (issued,
not awaited); return. -/
def attach (st : BridgeState) (node pfx : String) (delim : DelimField)
    (subscribeOk : Bool) : AttachResult :=
  if mhas st.connections pfx then
    ⟨some AttachErr.duplicateTopic, st, []⟩
  else
    let fullDelim := mergeDelimiter delim
    if !st.hasClient then
      ⟨some AttachErr.noClient, st, []⟩
    else
      let t1 := [BEv.subscribeCall node (pfx ++ "/tx") pfx]
      if !subscribeOk then
        ⟨some AttachErr.subscribeFail, st, t1⟩
      else
        let st2 : BridgeState :=
          ⟨st.hasClient, mset st.connections pfx ⟨node, pfx, fullDelim⟩⟩
        ⟨none, st2,
          t1 ++ [BEv.subscribeDone,
                 BEv.publishCall node (pfx ++ "/state") "open",
                 BEv.attachReturn]⟩

/-- `Bridge._handleMessage` (src/bridge.ts lines 203-209): an inbound
broker message tagged with `subscriptionId` is dispatched only when a
Connection is registered under that id; otherwise it is dropped. -/
def handleMessage (st : BridgeState) (subscriptionId data : String) : List BEv :=
  if mhas st.connections subscriptionId then
    [BEv.dispatchTx subscriptionId data]
  else
    []

/-- Result of `Bridge._handleDisconnect`: the state afterwards and the
topic prefixes whose device was force-closed (`entry.destroy`, i.e.
`port.close()`, called on every tracked Connection). -/
structure DisconnectResult where
  state : BridgeState
  destroyed : List String
deriving DecidableEq, Repr

/-- `Bridge._handleDisconnect` (src/bridge.ts lines 196-201): clear
`this._client`, then call `destroy` on every tracked Connection.  The
map itself is not modified here; entries are removed by each port's
close event. -/
def handleDisconnect (st : BridgeState) : DisconnectResult :=
  ⟨⟨false, st.connections⟩, mkeys st.connections⟩

/-- The close listener wired in `attach` (src/bridge.ts lines 156-163):
delete the Connection from the map, then `_safeUnsubscribe` (which does
nothing when `this._client` is unset). -/
def onConnClose (st : BridgeState) (pfx : String) : BridgeState :=
  ⟨st.hasClient, mdel st.connections pfx⟩

/-- Processing of the close events of the destroyed ports, in order. -/
def processCloses (st : BridgeState) (prefixes : List String) : BridgeState :=
  prefixes.foldl onConnClose st

/-- `Bridge._safePublish` (src/bridge.ts lines 211-224): no event is
issued at all when `this._client` is unset. -/
def safePublish (st : BridgeState) (node topic data : String) : Option BEv :=
  if st.hasClient then some (BEv.publishCall node topic data) else none

/-! ## Claim theorems: C4, C10, C6 -/

/-- C4: one-prefix invariant.  When a Connection is already registered
under prefix `p`, `attach` fails with the duplicate error before doing
anything: the state (hence the existing map entry) is exactly the
pre-call state and no broker-facing event is performed; moreover
`attach` preserves key uniqueness of the connections map in every case,
so at most one Connection per topic prefix ever exists. -/
theorem C4_attach_duplicate_is_error
    (st : BridgeState) (node p : String) (delim : DelimField)
    (subscribeOk : Bool) (hdup : mhas st.connections p = true) :
    attach st node p delim subscribeOk
        = ⟨some AttachErr.duplicateTopic, st, []⟩ ∧
    (∀ (st2 : BridgeState) (n2 p2 : String) (d2 : DelimField) (ok2 : Bool),
      keysNodup st2.connections →
      keysNodup (attach st2 n2 p2 d2 ok2).state.connections) := by
  constructor
  · simp [attach, hdup]
  · intro st2 n2 p2 d2 ok2 hnd
    rw [attach]
    by_cases h1 : mhas st2.connections p2 = true
    · simpa [h1] using hnd
    · rw [if_neg h1]
      cases hc : st2.hasClient with
      | false => simpa using hnd
      | true =>
        cases ok2 with
        | false => simpa using hnd
        | true =>
          simpa using keysNodup_mset st2.connections p2 _ hnd

/-- C10: failure paths of `attach`.  On the duplicate-prefix and
no-client errors the trace is empty, so in particular no subscribe call
was issued; and on every error (the rejected subscribe included) the
returned state equals the pre-call state, so the connections map is
untouched by failing calls. -/
theorem C10_attach_failure_paths
    (st : BridgeState) (node p : String) (delim : DelimField)
    (subscribeOk : Bool) :
    (((attach st node p delim subscribeOk).err = some AttachErr.duplicateTopic ∨
      (attach st node p delim subscribeOk).err = some AttachErr.noClient) →
      (attach st node p delim subscribeOk).trace = []) ∧
    ((attach st node p delim subscribeOk).err.isSome →
      (attach st node p delim subscribeOk).state = st) := by
  rw [attach]
  by_cases h1 : mhas st.connections p = true
  · simp [h1]
  · rw [if_neg h1]
    cases hc : st.hasClient with
    | false => simp
    | true =>
      cases subscribeOk with
      | false => simp
      | true => simp

/-- C6: disconnect sweep.  `_handleDisconnect` clears the client and
force-closes the device of every Connection tracked at that instant
(every registered prefix is in the destroyed list); processing the
resulting close events removes every Connection from the map, leaving
it empty, with the client still unset; and in the post-disconnect state
`_safePublish` issues no publish at all, so no rx publish occurs after
the disconnect event. -/
theorem C6_disconnect_closes_all
    (st : BridgeState) :
    (∀ p : String, mhas st.connections p = true →
      p ∈ (handleDisconnect st).destroyed) ∧
    (handleDisconnect st).state.hasClient = false ∧
    (processCloses (handleDisconnect st).state
        (handleDisconnect st).destroyed).connections = [] ∧
    (processCloses (handleDisconnect st).state
        (handleDisconnect st).destroyed).hasClient = false ∧
    (∀ node topic data : String,
      safePublish (handleDisconnect st).state node topic data = none) := by
  have hconn : ∀ (ps : List String) (s : BridgeState),
      processCloses s ps
        = ⟨s.hasClient, ps.foldl (fun acc k => mdel acc k) s.connections⟩ := by
    intro ps
    induction ps with
    | nil => intro s; rfl
    | cons p rest ih =>
      intro s
      show processCloses (onConnClose s p) rest = _
      rw [ih]
      rfl
  refine ⟨?_, rfl, ?_, ?_, ?_⟩
  · intro p hp
    exact mem_mkeys_of_mhas st.connections p hp
  · rw [hconn]
    exact foldl_mdel_all_keys (mkeys st.connections) st.connections
      (fun e he => List.mem_map_of_mem Prod.fst he)
  · rw [hconn]
    rfl
  · intro node topic data
    rfl

/-! ## Post-attach interleavings (for C5) -/

/-- All ways to insert one element into a list (at each position). -/
def insertions {β : Type} (x : β) : List β → List (List β)
  | [] => [[x]]
  | y :: ys => (x :: y :: ys) :: (insertions x ys).map (fun l => y :: l)

/-- The possible event orders around a successful `attach`: the "open"
state publish is issued through `_safePublish`, which does not await the
returned promise (src/bridge.ts lines 221-223), so after `attach`
returns, the settlement of that publish races with the dispatch of any
inbound tx messages already queued for delivery.  Each execution is the
attach trace followed by the queued dispatches with the publish
settlement inserted at some position. -/
def postAttachExecs (r : AttachResult) (node pfx : String)
    (queued : List String) : List (List BEv) :=
  (insertions (BEv.publishDone node (pfx ++ "/state") "open")
      (queued.map (fun d => BEv.dispatchTx pfx d))).map
    (fun tail => r.trace ++ tail)

/-- Is the event a dispatch of an inbound tx message to the device. -/
def isDispatchEv : BEv → Bool
  | BEv.dispatchTx _ _ => true
  | _ => false

/-- Is the event the issuing of the "open" publish on the state topic. -/
def isOpenStateCall (node pfx : String) : BEv → Bool
  | BEv.publishCall n t d =>
    if n = node ∧ t = pfx ++ "/state" ∧ d = "open" then true else false
  | _ => false

/-- Is the event the settlement of the "open" publish on the state
topic. -/
def isOpenStateDone (node pfx : String) : BEv → Bool
  | BEv.publishDone n t d =>
    if n = node ∧ t = pfx ++ "/state" ∧ d = "open" then true else false
  | _ => false

/-- The events strictly before the first event satisfying `q` (the
whole list when no event satisfies `q`). -/
def beforeFirst (q : BEv → Bool) : List BEv → List BEv
  | [] => []
  | e :: rest => if q e then [] else e :: beforeFirst q rest

/-- Some event satisfying `p` occurs strictly before the first event
satisfying `q`. -/
def someBefore (p q : BEv → Bool) (l : List BEv) : Bool :=
  (beforeFirst q l).any p

/-- The data values published on the `<pfx>/state` topic, in order. -/
def statePublishes (node pfx : String) (l : List BEv) : List String :=
  l.filterMap (fun e =>
    match e with
    | BEv.publishCall n t d =>
      if n = node ∧ t = pfx ++ "/state" then some d else none
    | _ => none)

/-! ## Claim C5 -/

/-- C5 counterexample: the claim requires that no tx dispatch is
accepted before the "open" publish *completes*, but `_safePublish` does
not await the publish, so its settlement is still pending when `attach`
returns; a queued inbound tx message ("hi", for the bridge attached
with prefix "p" on node "n" to an empty connected bridge) may then be
dispatched before that settlement — the execution below is among the
possible post-attach event orders and dispatches before the publish
settles. -/
theorem C5_counterexample :
    ((attach ⟨true, []⟩ "n" "p" DelimField.absent true).trace
        ++ [BEv.dispatchTx "p" "hi", BEv.publishDone "n" "p/state" "open"])
      ∈ postAttachExecs (attach ⟨true, []⟩ "n" "p" DelimField.absent true)
          "n" "p" ["hi"] ∧
    someBefore isDispatchEv (isOpenStateDone "n" "p")
      ((attach ⟨true, []⟩ "n" "p" DelimField.absent true).trace
        ++ [BEv.dispatchTx "p" "hi", BEv.publishDone "n" "p/state" "open"])
      = true := by
  constructor
  · decide
  · decide

/-- C5 (amended): for every successful `attach`, the broker
subscription is confirmed (`subscribeDone`) before the "open" state
publish is issued and before `attach` returns; the sequence of values
published on the state topic begins with (indeed, within the attach
trace consists of exactly) "open"; no tx dispatch occurs before the
"open" publish is *issued* in any possible post-attach event order; and
before the Connection is registered, `_handleMessage` drops inbound
messages for the prefix, so no tx dispatch for the Connection is
accepted before the attach call installs it. -/
theorem C5_subscribe_before_open_announce
    (st : BridgeState) (node pfx : String) (delim : DelimField)
    (subscribeOk : Bool) (queued : List String)
    (hdup : mhas st.connections pfx = false)
    (hc : st.hasClient = true)
    (hok : subscribeOk = true) :
    (attach st node pfx delim subscribeOk).trace
      = [BEv.subscribeCall node (pfx ++ "/tx") pfx,
         BEv.subscribeDone,
         BEv.publishCall node (pfx ++ "/state") "open",
         BEv.attachReturn] ∧
    (attach st node pfx delim subscribeOk).err = none ∧
    statePublishes node pfx (attach st node pfx delim subscribeOk).trace
      = ["open"] ∧
    (∀ exec ∈ postAttachExecs (attach st node pfx delim subscribeOk)
        node pfx queued,
      someBefore isDispatchEv (isOpenStateCall node pfx) exec = false) ∧
    (∀ data : String, handleMessage st pfx data = []) := by
  subst hok
  have htrace : (attach st node pfx delim true).trace
      = [BEv.subscribeCall node (pfx ++ "/tx") pfx,
         BEv.subscribeDone,
         BEv.publishCall node (pfx ++ "/state") "open",
         BEv.attachReturn] := by
    simp [attach, hdup, hc]
  refine ⟨htrace, by simp [attach, hdup, hc], ?_, ?_, ?_⟩
  · rw [htrace]
    simp [statePublishes]
  · intro exec hexec
    rw [postAttachExecs, List.mem_map] at hexec
    obtain ⟨tail, _, htail⟩ := hexec
    rw [← htail, htrace]
    simp [someBefore, beforeFirst, isOpenStateCall, isDispatchEv]
  · intro data
    simp [handleMessage, hdup]

/-- C5 witness: the amended theorem applied to an empty connected
bridge, prefix "p" on node "n", one queued message. -/
theorem C5_witness :
    mhas (⟨true, []⟩ : BridgeState).connections "p" = false ∧
    (⟨true, []⟩ : BridgeState).hasClient = true ∧
    ((attach ⟨true, []⟩ "n" "p" DelimField.absent true).trace
      = [BEv.subscribeCall "n" ("p" ++ "/tx") "p",
         BEv.subscribeDone,
         BEv.publishCall "n" ("p" ++ "/state") "open",
         BEv.attachReturn] ∧
    (attach ⟨true, []⟩ "n" "p" DelimField.absent true).err = none ∧
    statePublishes "n" "p" (attach ⟨true, []⟩ "n" "p" DelimField.absent true).trace
      = ["open"] ∧
    (∀ exec ∈ postAttachExecs (attach ⟨true, []⟩ "n" "p" DelimField.absent true)
        "n" "p" ["hi"],
      someBefore isDispatchEv (isOpenStateCall "n" "p") exec = false) ∧
    (∀ data : String, handleMessage ⟨true, []⟩ "p" data = [])) :=
  ⟨by decide, rfl,
   C5_subscribe_before_open_announce ⟨true, []⟩ "n" "p" DelimField.absent
     true ["hi"] (by decide) rfl rfl⟩

/-! ## InterruptibleSleep (src/util.ts) -/

/-- State of an `InterruptibleSleep` instance, with the deferred trigger
objects numbered in creation order: `triggerId` is the id of the current
`this._trigger` (a fresh `defer()` result), `resolved` the ids of the
triggers whose `resolve` has been called. -/
structure SleepState where
  triggerId : Nat
  resolved : List Nat
deriving DecidableEq, Repr

/-- A freshly constructed `InterruptibleSleep`: trigger 0, nothing
resolved. -/
def initSleep : SleepState := ⟨0, []⟩

/-- `interrupt()` (src/util.ts lines 307-310): resolve the current
trigger, then replace it with a fresh deferred. -/
def interrupt (s : SleepState) : SleepState :=
  ⟨s.triggerId + 1, s.triggerId :: s.resolved⟩

/-- Whether a sleep that captured trigger `t` when it started observes
its trigger promise resolved in state `s` (and therefore its race
settles via the trigger instead of the timeout). -/
def wokenEarly (t : Nat) (s : SleepState) : Bool :=
  decide (t ∈ s.resolved)

/-- The reachable-state invariant: exactly the already-replaced triggers
(ids below the current one) are resolved. -/
def goodSleep (s : SleepState) : Prop :=
  ∀ k, k ∈ s.resolved ↔ k < s.triggerId

/-- State of the runtime timer table: the next fresh `setTimeout`
handle, and the handles currently armed. -/
structure TimerState where
  nextTimer : Nat
  armed : List Nat
deriving DecidableEq, Repr

/-- `setTimeout` inside `sleep()`: arm a fresh timer handle. -/
def armFresh (ts : TimerState) : Nat × TimerState :=
  (ts.nextTimer, ⟨ts.nextTimer + 1, ts.nextTimer :: ts.armed⟩)

/-- `clearTimeout(handle)` as performed by the `finally` block of
`sleep()`. -/
def clearTimer (ts : TimerState) (h : Nat) : TimerState :=
  ⟨ts.nextTimer, ts.armed.filter (fun x => x != h)⟩

/-- Result of one complete `sleep(timeoutInMs)` call. -/
structure SleepCallResult where
  earlyWake : Bool
  handle : Nat
  sleepAfter : SleepState
  timersAfter : TimerState
deriving DecidableEq, Repr

/-- One `sleep(timeoutInMs)` call (src/util.ts lines 293-305) during
which `interruptsDuring` calls to `interrupt()` happen: the call races
the trigger promise captured at entry against a freshly armed timer of
its own, and clears that timer in its `finally` block on the way out. -/
def sleepCall (sl : SleepState) (ts : TimerState)
    (interruptsDuring : Nat) : SleepCallResult :=
  let t := sl.triggerId
  let h := (armFresh ts).1
  let ts1 := (armFresh ts).2
  let sl1 := Nat.iterate interrupt interruptsDuring sl
  ⟨wokenEarly t sl1, h, sl1, clearTimer ts1 h⟩

theorem goodSleep_interrupt (s : SleepState) (hg : goodSleep s) :
    goodSleep (interrupt s) := by
  intro k
  simp only [interrupt, List.mem_cons]
  rw [hg k]
  constructor
  · intro h
    rcases h with h | h <;> omega
  · intro h
    omega

theorem goodSleep_iterate (n : Nat) (s : SleepState) (hg : goodSleep s) :
    goodSleep (Nat.iterate interrupt n s) := by
  induction n generalizing s with
  | zero => exact hg
  | succ m ih =>
    rw [Function.iterate_succ_apply]
    exact ih (interrupt s) (goodSleep_interrupt s hg)

theorem resolved_mono_iterate (n : Nat) (s : SleepState) (x : Nat)
    (hx : x ∈ s.resolved) : x ∈ (Nat.iterate interrupt n s).resolved := by
  induction n generalizing s with
  | zero => exact hx
  | succ m ih =>
    rw [Function.iterate_succ_apply]
    exact ih (interrupt s) (List.mem_cons_of_mem _ hx)

theorem mem_resolved_iterate (n : Nat) (s : SleepState) (hn : 1 ≤ n) :
    s.triggerId ∈ (Nat.iterate interrupt n s).resolved := by
  cases n with
  | zero => omega
  | succ m =>
    rw [Function.iterate_succ_apply]
    exact resolved_mono_iterate m (interrupt s) s.triggerId
      (List.mem_cons_self _ _)

theorem wokenEarly_self_false (s : SleepState) (hg : goodSleep s) :
    wokenEarly s.triggerId s = false := by
  apply decide_eq_false
  intro hmem
  exact absurd ((hg _).mp hmem) (lt_irrefl _)

theorem not_mem_filter_bne_self (l : List Nat) (h : Nat) :
    h ∉ l.filter (fun x => x != h) := by
  intro hmem
  have := (List.mem_filter.mp hmem).2
  simp at this

/-! ## Claim C8 -/

/-- C8: for `InterruptibleSleep` in any reachable state: one
`interrupt()` wakes a pending sleep (one whose captured trigger `t` is
the current or an older one) and a second `interrupt()` call has the
same effect on it, so `interrupt()` is idempotent; after one or two
interrupts with no sleep pending, the then-current trigger is
unresolved, so the next `sleep` is not woken before its duration — the
calls were no-ops for it; an interrupted sleep observes its trigger
resolved (returns promptly); each `sleep` call clears its own freshly
armed timer on return and a later sleep owns a distinct fresh timer, so
no residual timer of an interrupted sleep remains armed, and a later
sleep during which no interrupt happens is not woken early. -/
theorem C8_interruptible_sleep
    (s : SleepState) (t : Nat) (ts : TimerState) (n1 n2 : Nat)
    (hg : goodSleep s) (ht : t ≤ s.triggerId) :
    wokenEarly t (interrupt s) = true ∧
    wokenEarly t (interrupt (interrupt s)) = true ∧
    wokenEarly (interrupt s).triggerId (interrupt s) = false ∧
    wokenEarly (interrupt (interrupt s)).triggerId
      (interrupt (interrupt s)) = false ∧
    (1 ≤ n1 → (sleepCall s ts n1).earlyWake = true) ∧
    (sleepCall s ts n1).handle ∉ (sleepCall s ts n1).timersAfter.armed ∧
    (sleepCall (sleepCall s ts n1).sleepAfter
        (sleepCall s ts n1).timersAfter n2).handle
      ≠ (sleepCall s ts n1).handle ∧
    (n2 = 0 → (sleepCall (sleepCall s ts n1).sleepAfter
        (sleepCall s ts n1).timersAfter n2).earlyWake = false) := by
  have hmem1 : t ∈ (interrupt s).resolved := by
    rcases eq_or_lt_of_le ht with h | h
    · exact h ▸ List.mem_cons_self _ _
    · exact List.mem_cons_of_mem _ ((hg t).mpr h)
  refine ⟨decide_eq_true hmem1,
    decide_eq_true (List.mem_cons_of_mem _ hmem1),
    wokenEarly_self_false (interrupt s) (goodSleep_interrupt s hg),
    wokenEarly_self_false (interrupt (interrupt s))
      (goodSleep_interrupt _ (goodSleep_interrupt s hg)),
    ?_, ?_, ?_, ?_⟩
  · intro hn
    exact decide_eq_true (mem_resolved_iterate n1 s hn)
  · exact not_mem_filter_bne_self (ts.nextTimer :: ts.armed) ts.nextTimer
  · exact Nat.succ_ne_self ts.nextTimer
  · intro hn
    subst hn
    exact wokenEarly_self_false (Nat.iterate interrupt n1 s)
      (goodSleep_iterate n1 s hg)

/-- C8 witness: the theorem applied to a fresh `InterruptibleSleep`, a
sleep pending on trigger 0, a fresh timer table, one interrupt during
the first sleep and none during the second. -/
theorem C8_witness :
    goodSleep initSleep ∧ 0 ≤ initSleep.triggerId ∧
    (wokenEarly 0 (interrupt initSleep) = true ∧
    wokenEarly 0 (interrupt (interrupt initSleep)) = true ∧
    wokenEarly (interrupt initSleep).triggerId (interrupt initSleep) = false ∧
    wokenEarly (interrupt (interrupt initSleep)).triggerId
      (interrupt (interrupt initSleep)) = false ∧
    (1 ≤ 1 → (sleepCall initSleep ⟨0, []⟩ 1).earlyWake = true) ∧
    (sleepCall initSleep ⟨0, []⟩ 1).handle
      ∉ (sleepCall initSleep ⟨0, []⟩ 1).timersAfter.armed ∧
    (sleepCall (sleepCall initSleep ⟨0, []⟩ 1).sleepAfter
        (sleepCall initSleep ⟨0, []⟩ 1).timersAfter 0).handle
      ≠ (sleepCall initSleep ⟨0, []⟩ 1).handle ∧
    ((0 : Nat) = 0 → (sleepCall (sleepCall initSleep ⟨0, []⟩ 1).sleepAfter
        (sleepCall initSleep ⟨0, []⟩ 1).timersAfter 0).earlyWake = false)) :=
  ⟨by simp [goodSleep, initSleep], Nat.zero_le _,
   C8_interruptible_sleep initSleep 0 ⟨0, []⟩ 1 0
     (by simp [goodSleep, initSleep]) (Nat.zero_le _)⟩

/-! ## Witnesses for the remaining claim theorems -/

/-- C4 witness: a bridge already holding a Connection under prefix "p";
a second attach under "p" fails and leaves the state untouched. -/
theorem C4_witness :
    mhas (BridgeState.mk true
        [("p", ConnOpts.mk "n" "p" (some "\n"))]).connections "p" = true ∧
    (attach (BridgeState.mk true [("p", ConnOpts.mk "n" "p" (some "\n"))])
        "n" "p" DelimField.absent true
      = ⟨some AttachErr.duplicateTopic,
          BridgeState.mk true [("p", ConnOpts.mk "n" "p" (some "\n"))], []⟩ ∧
    (∀ (st2 : BridgeState) (n2 p2 : String) (d2 : DelimField) (ok2 : Bool),
      keysNodup st2.connections →
      keysNodup (attach st2 n2 p2 d2 ok2).state.connections)) :=
  ⟨by decide,
   C4_attach_duplicate_is_error
     (BridgeState.mk true [("p", ConnOpts.mk "n" "p" (some "\n"))])
     "n" "p" DelimField.absent true (by decide)⟩

/-- C6 witness: disconnect sweep on a bridge holding one Connection
under prefix "p". -/
theorem C6_witness :
    mhas (BridgeState.mk true
        [("p", ConnOpts.mk "n" "p" (some "\n"))]).connections "p" = true ∧
    "p" ∈ (handleDisconnect (BridgeState.mk true
        [("p", ConnOpts.mk "n" "p" (some "\n"))])).destroyed ∧
    (processCloses
        (handleDisconnect (BridgeState.mk true
          [("p", ConnOpts.mk "n" "p" (some "\n"))])).state
        (handleDisconnect (BridgeState.mk true
          [("p", ConnOpts.mk "n" "p" (some "\n"))])).destroyed).connections
      = [] ∧
    (∀ node topic data : String,
      safePublish (handleDisconnect (BridgeState.mk true
          [("p", ConnOpts.mk "n" "p" (some "\n"))])).state node topic data
        = none) :=
  ⟨by decide,
   (C6_disconnect_closes_all
      (BridgeState.mk true [("p", ConnOpts.mk "n" "p" (some "\n"))])).1
     "p" (by decide),
   (C6_disconnect_closes_all
      (BridgeState.mk true [("p", ConnOpts.mk "n" "p" (some "\n"))])).2.2.1,
   (C6_disconnect_closes_all
      (BridgeState.mk true [("p", ConnOpts.mk "n" "p" (some "\n"))])).2.2.2.2⟩

/-- C9 witness: a fresh scanner state; "/dev/cfg" resolves to
"/dev/ttyUSB0"; the open-callback fails for it. -/
theorem C9_witness :
    mhas ([] : SMap Nat) "/dev/ttyUSB0" = false ∧
    mhas (foundPortsOf
        (fun s => if s = "/dev/cfg" then some "/dev/ttyUSB0" else none)
        [("/dev/cfg", 0)]) "/dev/ttyUSB0" = true ∧
    ((tickOne ([] : SMap Nat) "/dev/ttyUSB0" 0
        OpenOutcome.callbackFail).tracked = [] ∧
    (tickOne ([] : SMap Nat) "/dev/ttyUSB0" 0
        OpenOutcome.callbackFail).closedByTick = true ∧
    (onPortClose (tickOne ([] : SMap Nat) "/dev/ttyUSB0" 0
          OpenOutcome.callbackFail).tracked "/dev/ttyUSB0"
        (tickOne ([] : SMap Nat) "/dev/ttyUSB0" 0
          OpenOutcome.callbackFail).openSuccessful).interrupted = false ∧
    mhas (scanStep
        (fun s => if s = "/dev/cfg" then some "/dev/ttyUSB0" else none)
        [("/dev/cfg", 0)]
        (tickOne ([] : SMap Nat) "/dev/ttyUSB0" 0
          OpenOutcome.callbackFail).tracked).newPorts "/dev/ttyUSB0" = true ∧
    (onPortClose (tickOne ([] : SMap Nat) "/dev/ttyUSB0" 0
          OpenOutcome.callbackOk).tracked "/dev/ttyUSB0"
        (tickOne ([] : SMap Nat) "/dev/ttyUSB0" 0
          OpenOutcome.callbackOk).openSuccessful).interrupted = true) :=
  ⟨by decide, by decide,
   C9_callback_failure_closes_without_wake ([] : SMap Nat) "/dev/ttyUSB0" 0
     (fun s => if s = "/dev/cfg" then some "/dev/ttyUSB0" else none)
     [("/dev/cfg", 0)] (by decide) (by decide)⟩

/-- C10 witness: attach on a bridge with no MHub connection fails with
the no-client error, issues no event and leaves the state untouched. -/
theorem C10_witness :
    ((attach (BridgeState.mk false []) "n" "p" DelimField.absent true).err
        = some AttachErr.duplicateTopic ∨
     (attach (BridgeState.mk false []) "n" "p" DelimField.absent true).err
        = some AttachErr.noClient) ∧
    (attach (BridgeState.mk false []) "n" "p" DelimField.absent true).trace
      = [] ∧
    (attach (BridgeState.mk false []) "n" "p" DelimField.absent true).state
      = BridgeState.mk false [] :=
  ⟨Or.inr (by decide),
   (C10_attach_failure_paths (BridgeState.mk false []) "n" "p"
      DelimField.absent true).1 (Or.inr (by decide)),
   (C10_attach_failure_paths (BridgeState.mk false []) "n" "p"
      DelimField.absent true).2 (by decide)⟩
